import Mathlib

/-!
Verification of the `keepcurrent` synchronization runner (package
`keepcurrent`, file `keepcurrent.go`) against its specification.

The Go code is embedded shallowly:

* `time.Time` values become `Nat` (the zero value `time.Time{}` is `0`);
  only ordering and equality of times matter to the runner.
* Bytes become `Nat`; a fetched stream's full contents become `List Nat`.
* `Source.Fetch(ifNewerThan time.Time) (io.ReadCloser, error)` becomes a
  function `Nat → FetchResult` with three outcomes, mirroring the three
  branches `err == ErrUnmodified`, `err != nil`, and success in `syncOnce`.
* A `Sink` is characterized by its observable interaction with the reader
  handed to `UpdateFrom`: from the full contents available through that
  reader it reads some number of bytes (clamped to what is available) and
  returns an optional error.  This is the `run` field of `SinkB`.
* The callbacks `OnSourceError func(error)` and `OnSinkError func(Sink, error)`
  are modelled by recording, in the cycle's outcome, the list of errors each
  callback was invoked with, in invocation order.
* `rc.Close()` calls are counted in the outcome (`closes`).
-/

namespace KeepCurrent

/-- Result of one call to `Source.Fetch`, as consumed by `syncOnce`
(keepcurrent.go lines 78-85): the distinguished `ErrUnmodified`, any other
error (abstracted to a `Nat` code), or a successfully fetched stream whose
full contents are the given byte list. -/
inductive FetchResult where
  | unmodified : FetchResult
  | fetchError (e : Nat) : FetchResult
  | stream (content : List Nat) : FetchResult
deriving DecidableEq

/-- Whether a fetch produced a stream (returned with a nil error). -/
def FetchResult.isStream : FetchResult → Bool
  | .stream _ => true
  | _ => false

/-- A sink, characterized by the observable behaviour of its `UpdateFrom`
method: given the full contents available through the reader it is handed,
`run` yields the number of bytes it reads before returning (clamped to the
available length by the reader semantics) and the error it returns, if any. -/
structure SinkB where
  run : List Nat → Nat × Option Nat

/-- Observable outcome of one `syncOnce` cycle (keepcurrent.go lines 76-106).

* `fetchedWith` — the watermark passed to the single `from.Fetch` call
  (`runner.lastUpdated` at entry, line 78);
* `lastUpdated` — the runner's watermark after the cycle (line 86 sets it to
  the cycle's start time on a successful fetch, otherwise it is unchanged);
* `delivered` — one entry per `Sink.UpdateFrom` invocation, in sink order:
  the full contents available through the reader handed to that sink;
* `sourceErrors` — the errors passed to the `OnSourceError` callback;
* `sinkErrors` — aligned with `delivered`: the error each `UpdateFrom`
  returned and hence was reported to `OnSinkError` (`none` on success);
* `closes` — how many times `rc.Close()` ran (the `defer` on line 87). -/
structure CycleOutcome where
  fetchedWith : Nat
  lastUpdated : Nat
  delivered : List (List Nat)
  sourceErrors : List Nat
  sinkErrors : List (Option Nat)
  closes : Nat
deriving DecidableEq

/-- The fan-out loop body for the sinks after the first one (keepcurrent.go
lines 96-104, iterations with `i >= 1`).  Each such sink is handed
`bytes.NewBuffer(w.Bytes())` — a fresh read-only view of the side buffer `w`
accumulated by the `io.TeeReader` while the first sink consumed the live
stream.  Reading from that fresh view advances only the view's own cursor:
`w` itself is written solely by the tee, so it is unchanged across these
iterations and every later sink sees the same contents `w`. -/
def runRest (w : List Nat) : List SinkB → List (List Nat) × List (Option Nat)
  | [] => ([], [])
  | s :: rest =>
    let res := runRest w rest
    (w :: res.1, (s.run w).2 :: res.2)

/-- One synchronization cycle: the embedding of `Runner.syncOnce`
(keepcurrent.go lines 76-106).  `wm` is `runner.lastUpdated` at entry and
`start` is the value `time.Now()` read on line 77, supplied as an input.

Branches, in source order: `ErrUnmodified` returns silently; any other
fetch error is reported to `OnSourceError` and the cycle ends; on success
the watermark is set to `start`, the stream's release is deferred, and the
contents are distributed — directly to a single sink, or through the
tee-then-buffer fan-out to several, where the side buffer `w` captures
exactly the bytes the first sink actually read (`content.take`, clamped). -/
def syncOnce (fetch : Nat → FetchResult) (sinks : List SinkB) (wm start : Nat) :
    CycleOutcome :=
  match fetch wm with
  | .unmodified => ⟨wm, wm, [], [], [], 0⟩
  | .fetchError e => ⟨wm, wm, [], [e], [], 0⟩
  | .stream content =>
    match sinks with
    | [] => ⟨wm, start, [], [], [], 1⟩
    | [s] => ⟨wm, start, [content], [], [(s.run content).2], 1⟩
    | s0 :: rest =>
      let w := content.take (s0.run content).1
      let res := runRest w rest
      ⟨wm, start, content :: res.1, [], (s0.run content).2 :: res.2, 1⟩

/-- The embedding of `Runner.InitFrom` (keepcurrent.go lines 47-52), which
runs one synchronous cycle against the supplied source unless no sinks are
configured; its effect on the runner is the new watermark. -/
def InitFrom (fetch : Nat → FetchResult) (sinks : List SinkB) (wm start : Nat) :
    Nat :=
  if sinks.length = 0 then wm
  else (syncOnce fetch sinks wm start).lastUpdated

/-- Input to one cycle of the polling loop: the start time the cycle reads
from the clock, and the source's behaviour during that cycle (a function of
the watermark it is passed, since the source's external state may differ
from cycle to cycle). -/
structure CycleIn where
  start : Nat
  fetch : Nat → FetchResult

/-- The runner's watermark after a sequence of cycles, each run by
`syncOnce` threading `runner.lastUpdated` (keepcurrent.go lines 63-64 run
`syncOnce` once per loop iteration). -/
def runWatermark (sinks : List SinkB) (wm : Nat) : List CycleIn → Nat
  | [] => wm
  | c :: cs => runWatermark sinks (syncOnce c.fetch sinks wm c.start).lastUpdated cs

/-- Modelled from the spec's words (for comparison with `runWatermark`):
"the watermark used for the next fetch equals the start time of the attempt
that most recently succeeded" — after each cycle the watermark becomes the
cycle's start time if that cycle's fetch returned a stream, and is otherwise
left unchanged, so it always names the start of the most recent successful
fetch (or the initial value if none succeeded). -/
def lastSuccessStart (wm : Nat) : List CycleIn → Nat
  | [] => wm
  | c :: cs => lastSuccessStart (if (c.fetch wm).isStream then c.start else wm) cs

/-- The `byteSource` test double from `keepcurrent_test.go` (lines 72-83):
`Fetch(ifNewerThan)` returns `ErrUnmodified` when `ifNewerThan` is strictly
after the source's `lastModified`, and otherwise a stream of `"abcde"`
(bytes 97..101). -/
def byteSource (lastModified : Nat) : Nat → FetchResult := fun ifNewerThan =>
  if lastModified < ifNewerThan then .unmodified
  else .stream [97, 98, 99, 100, 101]

/-- A sink whose `UpdateFrom` fully consumes its reader and succeeds (the
behaviour of `ToChannel` and `ToFile` on healthy destinations). -/
def sinkConsumesAll : SinkB := ⟨fun l => (l.length, none)⟩

/-- A sink whose `UpdateFrom` reads only 3 bytes and then returns error 1
(the failing first sink of the truncation scenario). -/
def sinkReads3ThenFails : SinkB := ⟨fun _ => (3, some 1)⟩

/-- State of the `chan struct{}` created by `Start` (keepcurrent.go line 61). -/
inductive ChanState where
  | opened
  | closed
deriving DecidableEq

/-- Go semantics of `close(ch)`: closing an open channel closes it; closing
an already-closed channel is a run-time panic, modelled as `none`. -/
def closeChan : ChanState → Option ChanState
  | .opened => some .closed
  | .closed => none

/-- The stop function returned by `Start` (keepcurrent.go lines 56-74): with
no sinks configured it is `func() {}` and touches no channel; otherwise it
is `func() { close(ch) }`. -/
def stopFn (sinks : List SinkB) : ChanState → Option ChanState :=
  fun st => if sinks.length = 0 then some st else closeChan st

/-- Calling the stop function `n` times in sequence, propagating a panic. -/
def callStopTimes (sinks : List SinkB) : Nat → ChanState → Option ChanState
  | 0, st => some st
  | n + 1, st => (stopFn sinks st).bind (callStopTimes sinks n)

/-- The fan-out tail hands every later sink the same buffered contents `w`
and reports exactly the errors those sinks return. -/
theorem runRest_eq (w : List Nat) (rest : List SinkB) :
    runRest w rest =
      (List.replicate rest.length w, rest.map fun s => (s.run w).2) := by
  induction rest with
  | nil => rfl
  | cons s rest ih => simp [runRest, ih, List.replicate_succ]

/-- The watermark after a cycle is the cycle's start time exactly when the
fetch returned a stream, and is otherwise unchanged — for any sinks. -/
theorem syncOnce_lastUpdated (fetch : Nat → FetchResult) (sinks : List SinkB)
    (wm start : Nat) :
    (syncOnce fetch sinks wm start).lastUpdated =
      if (fetch wm).isStream then start else wm := by
  cases h : fetch wm with
  | unmodified => simp [syncOnce, h, FetchResult.isStream]
  | fetchError e => simp [syncOnce, h, FetchResult.isStream]
  | stream content =>
    match sinks with
    | [] => simp [syncOnce, h, FetchResult.isStream]
    | [s] => simp [syncOnce, h, FetchResult.isStream]
    | s0 :: s1 :: rest => simp [syncOnce, h, FetchResult.isStream]

/-- Every cycle passes the runner's current watermark to `Fetch`. -/
theorem syncOnce_fetchedWith (fetch : Nat → FetchResult) (sinks : List SinkB)
    (wm start : Nat) :
    (syncOnce fetch sinks wm start).fetchedWith = wm := by
  cases h : fetch wm with
  | unmodified => simp [syncOnce, h]
  | fetchError e => simp [syncOnce, h]
  | stream content =>
    match sinks with
    | [] => simp [syncOnce, h]
    | [s] => simp [syncOnce, h]
    | s0 :: s1 :: rest => simp [syncOnce, h]

/-- C4: a cycle whose fetch returns the distinguished `Unmodified` value is
a successful no-op — no sink's `UpdateFrom` is invoked, the watermark is
unchanged, and the source-error callback is not invoked (the embedded code
has no attempt counter at all, so none is incremented). -/
theorem syncOnce_unmodified_noop (fetch : Nat → FetchResult) (sinks : List SinkB)
    (wm start : Nat) (h : fetch wm = .unmodified) :
    syncOnce fetch sinks wm start = ⟨wm, wm, [], [], [], 0⟩ := by
  simp [syncOnce, h]

/-- C4 witness: the test double `byteSource` with last-modified time 5,
polled with watermark 9, reports `Unmodified` and the cycle is a no-op. -/
theorem syncOnce_unmodified_noop_witness :
    byteSource 5 9 = .unmodified ∧
      syncOnce (byteSource 5) [sinkConsumesAll] 9 11 = ⟨9, 9, [], [], [], 0⟩ :=
  ⟨by decide, syncOnce_unmodified_noop (byteSource 5) [sinkConsumesAll] 9 11
    (by decide)⟩

/-- C3: what the code actually does on a fetch error other than
`Unmodified` — `OnSourceError` is invoked exactly once, with the error
alone, and the cycle ends immediately: no attempt count is tracked, no delay
is consulted, and no retry of the fetch happens within the cycle (the
outcome is final, with the single fetch recorded in `fetchedWith` and the
watermark unchanged).  The runner always waits for the next tick. -/
theorem syncOnce_fetchError_no_retry (fetch : Nat → FetchResult)
    (sinks : List SinkB) (wm start e : Nat) (h : fetch wm = .fetchError e) :
    syncOnce fetch sinks wm start = ⟨wm, wm, [], [e], [], 0⟩ := by
  simp [syncOnce, h]

/-- C3 witness: a source failing with error 5 on a cycle at watermark 0
yields one callback invocation and no retry. -/
theorem syncOnce_fetchError_no_retry_witness :
    (fun _ : Nat => FetchResult.fetchError 5) 0 = .fetchError 5 ∧
      syncOnce (fun _ => .fetchError 5) [sinkConsumesAll] 0 3 =
        ⟨0, 0, [], [5], [], 0⟩ :=
  ⟨rfl, syncOnce_fetchError_no_retry (fun _ => .fetchError 5)
    [sinkConsumesAll] 0 3 5 rfl⟩

/-- C8: whenever the fetch returns a stream with a nil error, the cycle
closes that stream exactly once, on every exit path — in particular for any
sink list, including sinks whose `UpdateFrom` fails. -/
theorem syncOnce_closes_stream_once (fetch : Nat → FetchResult)
    (sinks : List SinkB) (wm start : Nat) (c : List Nat)
    (h : fetch wm = .stream c) :
    (syncOnce fetch sinks wm start).closes = 1 := by
  match sinks with
  | [] => simp [syncOnce, h]
  | [s] => simp [syncOnce, h]
  | s0 :: s1 :: rest => simp [syncOnce, h]

/-- C8 witness: a successful fetch distributed to a failing first sink and a
healthy second sink still closes the stream exactly once. -/
theorem syncOnce_closes_stream_once_witness :
    byteSource 5 0 = .stream [97, 98, 99, 100, 101] ∧
      (syncOnce (byteSource 5) [sinkReads3ThenFails, sinkConsumesAll] 0 7).closes
        = 1 :=
  ⟨by decide, syncOnce_closes_stream_once (byteSource 5)
    [sinkReads3ThenFails, sinkConsumesAll] 0 7 [97, 98, 99, 100, 101]
    (by decide)⟩

/-- C5: the truncation scenario.  Two sinks; a successful fetch of the
5-byte payload `"abcde"`; the first sink reads only 3 of the 5 bytes and
returns error 1.  Then the second sink's `UpdateFrom` is still invoked and
the reader it is handed holds exactly those 3 bytes — a truncated payload,
not an error and not the full 5 — the second sink itself succeeds, and the
first sink's error is reported through the sink-error callback. -/
theorem syncOnce_truncated_second_sink :
    (syncOnce (fun _ => .stream [97, 98, 99, 100, 101])
        [sinkReads3ThenFails, sinkConsumesAll] 0 1).delivered =
      [[97, 98, 99, 100, 101], [97, 98, 99]] ∧
    (syncOnce (fun _ => .stream [97, 98, 99, 100, 101])
        [sinkReads3ThenFails, sinkConsumesAll] 0 1).sinkErrors =
      [some 1, none] := by
  constructor <;> rfl

/-- C1: on a successful fetch, if every configured sink fully consumes the
reader it is given (it reads at least as many bytes as are available), then
every sink's `UpdateFrom` sees byte-identical content equal to the full
fetched stream — the single sink directly, and with several sinks the first
through the tee and each later one through a fresh view of the buffer, which
by then holds the whole payload. -/
theorem syncOnce_fanout_byte_identical (fetch : Nat → FetchResult)
    (sinks : List SinkB) (wm start : Nat) (c : List Nat)
    (hf : fetch wm = .stream c) (hne : sinks ≠ [])
    (hfull : ∀ s ∈ sinks, ∀ x : List Nat, x.length ≤ (s.run x).1) :
    (syncOnce fetch sinks wm start).delivered = List.replicate sinks.length c := by
  match sinks with
  | [] => exact absurd rfl hne
  | [s] => simp [syncOnce, hf]
  | s0 :: s1 :: rest =>
    have h0 : c.length ≤ (s0.run c).1 := hfull s0 (by simp) c
    have hw : c.take (s0.run c).1 = c := List.take_of_length_le h0
    simp [syncOnce, hf, runRest_eq, hw, List.replicate_succ]

/-- C1 witness: two fully-consuming sinks both receive the full `"abcde"`
payload fetched from the test double `byteSource`. -/
theorem syncOnce_fanout_byte_identical_witness :
    byteSource 5 0 = .stream [97, 98, 99, 100, 101] ∧
      (syncOnce (byteSource 5) [sinkConsumesAll, sinkConsumesAll] 0 7).delivered =
        List.replicate 2 [97, 98, 99, 100, 101] :=
  ⟨by decide, by
    have h := syncOnce_fanout_byte_identical (byteSource 5)
      [sinkConsumesAll, sinkConsumesAll] 0 7 [97, 98, 99, 100, 101]
      (by decide) (List.cons_ne_nil _ _)
      (by
        intro s hs x
        simp only [List.mem_cons, List.not_mem_nil, or_false] at hs
        rcases hs with h | h <;> subst h <;> simp [sinkConsumesAll])
    simpa using h⟩

/-- C10: with more than one sink, the content handed to every sink after the
first is exactly the bytes the first sink consumed from the live stream
(`c.take` of its read count), and is unaffected by the behaviour — partial
reads or failures — of the later sinks themselves: replacing the tail of the
sink list by any other tail of the same length delivers the same contents. -/
theorem syncOnce_later_sinks_depend_only_on_first (fetch : Nat → FetchResult)
    (s0 : SinkB) (rest : List SinkB) (wm start : Nat) (c : List Nat)
    (hf : fetch wm = .stream c) :
    (syncOnce fetch (s0 :: rest) wm start).delivered =
      c :: List.replicate rest.length (c.take (s0.run c).1) ∧
    ∀ rest2 : List SinkB, rest2.length = rest.length →
      (syncOnce fetch (s0 :: rest2) wm start).delivered =
        (syncOnce fetch (s0 :: rest) wm start).delivered := by
  have key : ∀ r : List SinkB, (syncOnce fetch (s0 :: r) wm start).delivered =
      c :: List.replicate r.length (c.take (s0.run c).1) := by
    intro r
    match r with
    | [] => simp [syncOnce, hf]
    | s1 :: rest3 => simp [syncOnce, hf, runRest_eq]
  refine ⟨key rest, fun rest2 hlen => ?_⟩
  rw [key rest2, key rest, hlen]

/-- C10 witness: behind a first sink that reads 3 of 5 bytes and fails, two
later sinks each receive the same 3-byte truncation. -/
theorem syncOnce_later_sinks_depend_only_on_first_witness :
    byteSource 5 0 = .stream [97, 98, 99, 100, 101] ∧
      (syncOnce (byteSource 5)
          [sinkReads3ThenFails, sinkConsumesAll, sinkConsumesAll] 0 7).delivered =
        [97, 98, 99, 100, 101] :: List.replicate 2 [97, 98, 99] :=
  ⟨by decide, by
    have h := (syncOnce_later_sinks_depend_only_on_first (byteSource 5)
      sinkReads3ThenFails [sinkConsumesAll, sinkConsumesAll] 0 7
      [97, 98, 99, 100, 101] (by decide)).1
    simpa [sinkReads3ThenFails] using h⟩

/-- The fold of `syncOnce` over a cycle sequence computes the same watermark
as the spec-side recursion `lastSuccessStart`, for any sink list. -/
theorem watermark_fold_eq (sinks : List SinkB) (wm : Nat) (cs : List CycleIn) :
    runWatermark sinks wm cs = lastSuccessStart wm cs := by
  induction cs generalizing wm with
  | nil => rfl
  | cons c cs ih =>
    rw [runWatermark, lastSuccessStart, syncOnce_lastUpdated]
    exact ih _

/-- C2: after any sequence of cycles, the runner's watermark — and hence the
value passed to `Source.Fetch` on the next cycle — equals the start time of
the most recent cycle whose fetch returned a stream (no error; `Unmodified`
and failed fetches leave it unchanged), as computed by `lastSuccessStart`;
the equality holds for every sink list, so sink failures neither roll the
watermark back nor lead to a re-fetch of the same version. -/
theorem runner_watermark_tracks_last_success (sinks : List SinkB) (wm : Nat)
    (cs : List CycleIn) (f : Nat → FetchResult) (t : Nat) :
    runWatermark sinks wm cs = lastSuccessStart wm cs ∧
    (syncOnce f sinks (runWatermark sinks wm cs) t).fetchedWith =
      lastSuccessStart wm cs := by
  have h := watermark_fold_eq sinks wm cs
  exact ⟨h, by rw [syncOnce_fetchedWith, h]⟩

/-- C7: if `InitFrom` completes a successful cycle (fetch from the initial
zero watermark yields a stream) and the source reports nothing newer than
the watermark `t1` that cycle established, then the first polled cycle after
`Start` is handed watermark `t1`, is answered `Unmodified`, updates no sink,
and leaves the watermark at `t1` — no re-fetch of the payload. -/
theorem initFrom_then_start_no_refetch (fetch : Nat → FetchResult)
    (sinks : List SinkB) (t1 t2 : Nat) (c : List Nat)
    (hne : sinks.length ≠ 0)
    (h0 : fetch 0 = .stream c)
    (h1 : fetch t1 = .unmodified) :
    InitFrom fetch sinks 0 t1 = t1 ∧
    syncOnce fetch sinks (InitFrom fetch sinks 0 t1) t2 =
      ⟨t1, t1, [], [], [], 0⟩ := by
  have hwm : InitFrom fetch sinks 0 t1 = t1 := by
    rw [InitFrom, if_neg hne, syncOnce_lastUpdated, h0]
    simp [FetchResult.isStream]
  refine ⟨hwm, ?_⟩
  rw [hwm]
  simp [syncOnce, h1]

/-- C7 witness: `byteSource` last modified at time 5, seeded by `InitFrom`
at time 7: the first polled cycle afterwards is a no-op at watermark 7. -/
theorem initFrom_then_start_no_refetch_witness :
    byteSource 5 7 = .unmodified ∧
      InitFrom (byteSource 5) [sinkConsumesAll] 0 7 = 7 ∧
      syncOnce (byteSource 5) [sinkConsumesAll] 7 9 = ⟨7, 7, [], [], [], 0⟩ := by
  have h := initFrom_then_start_no_refetch (byteSource 5) [sinkConsumesAll]
    7 9 [97, 98, 99, 100, 101] (by decide) (by decide) (by decide)
  refine ⟨by decide, h.1, ?_⟩
  have h2 := h.2
  rwa [h.1] at h2

/-- C9: for a started loop with at least one sink, one call of the returned
stop function closes the channel; any further call closes an already-closed
channel and panics (Go run-time semantics of `close`), so only the first
call is safe — while the no-sink variant of the stop function may be called
any number of times without effect. -/
theorem stop_second_call_panics (s0 : SinkB) (rest : List SinkB) :
    callStopTimes (s0 :: rest) 1 .opened = some .closed ∧
    (∀ n : Nat, callStopTimes (s0 :: rest) (n + 2) .opened = none) ∧
    (∀ (n : Nat) (st : ChanState), callStopTimes [] n st = some st) := by
  refine ⟨rfl, ?_, ?_⟩
  · intro n
    simp [callStopTimes, stopFn, closeChan]
  · intro n st
    induction n with
    | zero => rfl
    | succ n ih => simp [callStopTimes, stopFn, ih]

end KeepCurrent
